import Mathlib

/-!
Shallow embedding of the novel-translation glossary and batch-translation core.

The definitions below are translated from the TypeScript source:
the type declarations, the Gemini service functions
(extractTermsFromText, findArabicTranslationForTerm, translateChapterWithGlossary)
and the dashboard component logic (runDeepScan, startBulkTranslation).
External collaborator calls are modelled by explicit response values or
response oracles passed as parameters. JavaScript strings are modelled by
Lean strings with character-based indexing; toLowerCase and trim are
modelled character-wise (jsToLower, jsTrim); Date timestamps and the
polling clock of the bulk loop are modelled by Nat ticks, one tick per
poll or per item step.
-/

/-- Term record from the types module. Category is kept as a raw string since
the source casts arbitrary collaborator strings into the category field
without runtime validation. -/
structure Term where
  novelId : Nat
  original : String
  translation : String
  category : String
  isLocked : Bool
deriving DecidableEq, Repr

/-- Chapter record from the types module (document unit). translatedContent
absent means not yet translated; lastTranslated is a model timestamp. -/
structure Chapter where
  id : Nat
  novelId : Nat
  title : String
  order : Nat
  content : String
  translatedContent : Option String
  lastTranslated : Option Nat
deriving DecidableEq, Repr

/-- Raw extraction candidate: element of the Partial Term array parsed from
the extractor response; both fields may be absent. -/
structure RawTerm where
  original : Option String
  category : Option String
deriving DecidableEq, Repr

/-- Outcome of one generateContent call: a response whose text field may be
absent, or a thrown error. -/
inductive GenResult where
  | ok (text : Option String)
  | err
deriving DecidableEq, Repr

/-- ASCII lowering of one character, modelling toLowerCase. -/
def charToLower (c : Char) : Char :=
  if 65 ≤ c.toNat ∧ c.toNat ≤ 90 then Char.ofNat (c.toNat + 32) else c

/-- Model of String.prototype.toLowerCase (ASCII range). -/
def jsToLower (s : String) : String :=
  String.mk (s.toList.map charToLower)

/-- Whitespace test used by the trim model. -/
def isWsChar (c : Char) : Bool :=
  c == ' ' || c == '\t' || c == '\n' || c == '\r'

/-- Model of String.prototype.trim: strip whitespace from both ends. -/
def jsTrim (s : String) : String :=
  String.mk (((s.toList.dropWhile isWsChar).reverse.dropWhile isWsChar).reverse)

/-- JavaScript truthiness of an optional string: undefined and the empty
string are falsy. -/
def truthyStr : Option String → Bool
  | none => false
  | some s => !s.isEmpty

/-- JavaScript x || d for an optional string x: returns d when x is absent
or empty. -/
def jsOrStr (x : Option String) (d : String) : String :=
  match x with
  | none => d
  | some s => if s.isEmpty then d else s

/-- Haystack starts with needle, on character lists. -/
def startsWithL : List Char → List Char → Bool
  | _, [] => true
  | [], _ :: _ => false
  | h :: hs, n :: ns => h == n && startsWithL hs ns

/-- Worker for jsIndexOf: scan the haystack keeping the current index. -/
def jsIndexOfAux (needle : List Char) : List Char → Nat → Int
  | [], i => if startsWithL [] needle then (i : Int) else (-1)
  | h :: t, i =>
    if startsWithL (h :: t) needle then (i : Int) else jsIndexOfAux needle t (i + 1)

/-- JavaScript String.prototype.indexOf: first occurrence index, or -1. -/
def jsIndexOf (hay needle : String) : Int :=
  jsIndexOfAux needle.toList hay.toList 0

/-- JavaScript String.prototype.substring: both arguments are clamped to
[0, length] and swapped when out of order. -/
def jsSubstring (s : String) (a b : Int) : String :=
  let len : Nat := s.toList.length
  let a2 : Nat := min (Int.toNat a) len
  let b2 : Nat := min (Int.toNat b) len
  let lo : Nat := min a2 b2
  let hi : Nat := max a2 b2
  String.mk ((s.toList.drop lo).take (hi - lo))

/-- The double-quote and single-quote characters stripped by the cleanup
regex in findArabicTranslationForTerm. -/
def quoteChars : List Char := [Char.ofNat 34, Char.ofNat 39]

/-- Model of cleanText.replace of the anchored quote regex: remove one
leading and one trailing quote character. -/
def stripQuoteEnds (s : String) : String :=
  let cs := s.toList
  let cs1 := match cs with
    | [] => ([] : List Char)
    | c :: rest => if quoteChars.contains c then rest else cs
  let cs2 := match cs1.reverse with
    | [] => ([] : List Char)
    | c :: rest => if quoteChars.contains c then rest.reverse else cs1
  String.mk cs2

/-- findArabicTranslationForTerm from the Gemini service: on a thrown
collaborator error it returns the term itself; otherwise it trims the
response text (empty when absent) and strips surrounding quotes. The
context snippet only feeds the prompt, so it does not affect the result
shape. -/
def findArabicTranslationForTerm (term : String) (_contextSnippet : String)
    (resp : GenResult) : String :=
  match resp with
  | GenResult.ok text => stripQuoteEnds ((text.map jsTrim).getD "")
  | GenResult.err => term

/-- Glossary mapping line, one per term, as formatted by
translateChapterWithGlossary. -/
def glossaryLine (g : Term) : String :=
  g.original ++ " -> " ++ g.translation

/-- The joined glossary mapping block of the translation prompt. -/
def glossaryStringOf (glossary : List Term) : String :=
  String.intercalate "\n" (glossary.map glossaryLine)

/-- The translation prompt assembled by translateChapterWithGlossary.
The fixed instruction text is abbreviated (it is opaque to the collaborator
model); the glossary block and the chapter content are embedded as in the
source. -/
def chapterPrompt (content : String) (glossary : List Term) : String :=
  "Translate the following webnovel chapter to Arabic." ++ "\nGLOSSARY:\n"
    ++ glossaryStringOf glossary ++ "\nCHAPTER CONTENT:\n" ++ content

/-- translateChapterWithGlossary from the Gemini service: issues one request
for the assembled prompt; returns response.text, the sentinel string for an
empty or absent response, or the error sentinel when the collaborator
throws. The collaborator is modelled as a function from the prompt to a
GenResult. -/
def translateChapterWithGlossary (content : String) (glossary : List Term)
    (gen : String → GenResult) : String :=
  match gen (chapterPrompt content glossary) with
  | GenResult.ok text => jsOrStr text "Translation failed."
  | GenResult.err => "Error generating translation. Please check API Key or quota."

/-- Term resolution inside runDeepScan: keep raw candidates whose original
is truthy and whose lowercased original is not among the lowercased
originals of the existing glossary terms. -/
def uniqueNewTerms (rawTerms : List RawTerm) (existingTerms : List Term) :
    List RawTerm :=
  let existingOriginals := existingTerms.map fun t => jsToLower t.original
  rawTerms.filter fun t =>
    truthyStr t.original && !(existingOriginals.contains (jsToLower (t.original.getD "")))

/-- Context snippet built in the deep-scan loop:
substring from indexOf(original) to indexOf(original) + 100. -/
def contextSnippet (combined : String) (orig : String) : String :=
  jsSubstring combined (jsIndexOf combined orig) (jsIndexOf combined orig + 100)

/-- Record shape of one glossary insertion from the deep-scan loop, kept
separate so the translation argument can be rewritten syntactically. -/
def termRecordOf (novelId : Nat) (term : RawTerm) (translation : String) : Term :=
  { novelId := novelId
    original := term.original.getD ""
    translation := translation
    category := jsOrStr term.category "Other"
    isLocked := false }

/-- The Term record inserted for one resolved candidate by the deep-scan
loop, given the term-translation collaborator oracle O mapping
(term, context) to a response: the context snippet around the first
occurrence of the original feeds the term-translation call. -/
def deepScanTermOf (novelId : Nat) (combined : String)
    (O : String → String → GenResult) (term : RawTerm) : Term :=
  termRecordOf novelId term
    (findArabicTranslationForTerm (term.original.getD "")
      (contextSnippet combined (term.original.getD ""))
      (O (term.original.getD "") (contextSnippet combined (term.original.getD ""))))

/-- All Term records inserted by the deep-scan loop, in order: each resolved
candidate with a truthy original produces one insertion (the continue guard
of the loop skips falsy originals). -/
def deepScanInsertedTerms (novelId : Nat) (combined : String)
    (rawTerms : List RawTerm) (existingTerms : List Term)
    (O : String → String → GenResult) : List Term :=
  (uniqueNewTerms rawTerms existingTerms).filterMap fun term =>
    if truthyStr term.original = false then none
    else some (deepScanTermOf novelId combined O term)

/-- Sample chapters selected by runDeepScan: first three, middle by index,
last three, with falsy entries removed by filter(Boolean). The middle
access is modelled by an optional lookup since an out-of-range JavaScript
index yields undefined. -/
def sampleChapters (chapters : List Chapter) : List Chapter :=
  (((chapters.take 3).map some)
      ++ [chapters.get? (chapters.length / 2)]
      ++ ((chapters.drop (chapters.length - 3)).map some)).filterMap id

/-- Combined sample text: chapter contents joined with a blank line. -/
def combinedTextOf (chapters : List Chapter) : String :=
  String.intercalate "\n\n" ((sampleChapters chapters).map fun c => c.content)

example : jsIndexOf "abcdef" "cd" = 2 := by decide
example : jsIndexOf "abcdef" "zz" = -1 := by decide
example : jsSubstring "abcdef" (-1) 99 = "abcdef" := by decide
example : stripQuoteEnds "\x22ab\x27" = "ab" := by decide
example :
    (uniqueNewTerms
        [{ original := some "A", category := none },
         { original := some "", category := none },
         { original := some "b", category := none }]
        [{ novelId := 1, original := "B", translation := "x",
           category := "Other", isLocked := false }]).length = 1 := by decide
example : jsToLower "Zhang SAN" = "zhang san" := by decide
example : jsTrim "  ab c\n" = "ab c" := by decide
example : jsOrStr (some "") "d" = "d" := by decide
example :
    findArabicTranslationForTerm "Li Si" "ctx" (GenResult.ok (some " \x22x\x22 ")) = "x" := by
  decide

/-- Environment of one bulk-translation run: the document-translation
collaborator (prompt to response), whether the persistence update for the
i-th queue item succeeds, the tick at which the stop button was pressed
(stopSignal.current is true from that tick on), and the live value of the
pause flag at each polling tick. -/
structure BulkEnv where
  gen : String → GenResult
  persistOk : Nat → Bool
  stopAt : Option Nat
  paused : Nat → Bool

/-- Value of stopSignal.current at tick t. -/
def stopSig (env : BulkEnv) (t : Nat) : Bool :=
  match env.stopAt with
  | none => false
  | some k => decide (k ≤ t)

/-- The pause-wait loop: while stopSignal.current is false and the pause
flag is set, sleep one polling interval (one tick) and re-check. Returns
the tick at which the wait ends, or none when the fuel bound is exhausted
(run paused without bound). -/
def pauseWait (env : BulkEnv) : Nat → Nat → Option Nat
  | 0, _ => none
  | fuel + 1, t =>
    if stopSig env t = false && env.paused t then pauseWait env fuel (t + 1)
    else some t

/-- The field patch applied by the update call of the bulk loop:
set translatedContent and lastTranslated. -/
def updTC (text : String) (ts : Nat) (c : Chapter) : Chapter :=
  { c with translatedContent := some text, lastTranslated := some ts }

/-- Dexie chapters.update with translatedContent and lastTranslated fields,
keyed by chapter id. -/
def updateChapter (db : List Chapter) (cid : Nat) (text : String) (ts : Nat) :
    List Chapter :=
  db.map fun c => if c.id = cid then updTC text ts c else c

/-- Lookup of a chapter record by id. -/
def findById (db : List Chapter) (cid : Nat) : Option Chapter :=
  db.find? fun c => decide (c.id = cid)

/-- The untranslated filter of startBulkTranslation: JavaScript truthiness
of translatedContent (absent or empty counts as untranslated). -/
def isUntranslated (c : Chapter) : Bool :=
  !(truthyStr c.translatedContent)

/-- Observable per-item outcome of the bulk loop: the try block ran to
completion (translation persisted) or the catch branch logged a failure,
at the given queue index and tick. -/
inductive BulkEvent where
  | translated (i : Nat) (t : Nat)
  | caught (i : Nat) (t : Nat)
deriving DecidableEq, Repr

/-- Tick at which a bulk event occurred. -/
def BulkEvent.time : BulkEvent → Nat
  | BulkEvent.translated _ t => t
  | BulkEvent.caught _ t => t

/-- The bulk-translation loop over the indexed queue: before each item check
the stop signal (break), run the pause-wait, then translate the item and
persist the result; a persistence failure is caught and logged and the loop
advances. Each loop iteration advances the tick. -/
def runBulkAux (glossary : List Term) (env : BulkEnv) (fuel : Nat) :
    List (Nat × Chapter) → Nat → List Chapter → List Chapter × List BulkEvent
  | [], _, db => (db, [])
  | (i, ch) :: rest, t, db =>
    if stopSig env t = true then (db, [])
    else
      match pauseWait env fuel t with
      | none => (db, [])
      | some t1 =>
        let result := translateChapterWithGlossary ch.content glossary env.gen
        if env.persistOk i = true then
          let out := runBulkAux glossary env fuel rest (t1 + 1)
            (updateChapter db ch.id result t1)
          (out.1, BulkEvent.translated i t1 :: out.2)
        else
          let out := runBulkAux glossary env fuel rest (t1 + 1) db
          (out.1, BulkEvent.caught i t1 :: out.2)

/-- startBulkTranslation: snapshot the queue as the chapters lacking a
truthy translatedContent, return unchanged when the queue is empty, and
otherwise drive the loop from tick 0 over the indexed queue with the
glossary loaded once at start. -/
def startBulkTranslation (chapters : List Chapter) (glossary : List Term)
    (env : BulkEnv) (fuel : Nat) : List Chapter × List BulkEvent :=
  let untranslated := chapters.filter fun c => isUntranslated c
  if untranslated.length = 0 then (chapters, [])
  else runBulkAux glossary env fuel untranslated.enum 0 chapters

/-- Untranslated chapter fixture. -/
def chU : Chapter :=
  { id := 11, novelId := 1, title := "ch1", order := 1, content := "src one",
    translatedContent := none, lastTranslated := none }

/-- A second untranslated chapter fixture. -/
def chU2 : Chapter :=
  { id := 12, novelId := 1, title := "ch2", order := 2, content := "src two",
    translatedContent := none, lastTranslated := none }

/-- Already-translated chapter fixture. -/
def chT : Chapter :=
  { id := 13, novelId := 1, title := "ch3", order := 3, content := "src three",
    translatedContent := some "done", lastTranslated := some 7 }

/-- Environment fixture: collaborator succeeds, persistence succeeds, no
stop, never paused. -/
def envOk : BulkEnv :=
  { gen := fun _ => GenResult.ok (some "T1"), persistOk := fun _ => true,
    stopAt := none, paused := fun _ => false }

example :
    (startBulkTranslation [chU, chT] [] envOk 1).2 = [BulkEvent.translated 0 0] := by
  decide
example :
    findById (startBulkTranslation [chU, chT] [] envOk 1).1 11
      = some { chU with translatedContent := some "T1", lastTranslated := some 0 } := by
  decide
example :
    (startBulkTranslation [chU, chU2] [] envOk 1).2
      = [BulkEvent.translated 0 0, BulkEvent.translated 1 1] := by decide

/-- Membership in the resolver output forces the filter predicate. -/
theorem mem_uniqueNewTerms {rawTs : List RawTerm} {existing : List Term} {t : RawTerm}
    (ht : t ∈ uniqueNewTerms rawTs existing) :
    truthyStr t.original = true ∧
      ((existing.map fun e => jsToLower e.original).contains
          (jsToLower (t.original.getD ""))) = false := by
  unfold uniqueNewTerms at ht
  rw [List.mem_filter] at ht
  obtain ⟨-, hp⟩ := ht
  rw [Bool.and_eq_true, Bool.not_eq_true'] at hp
  exact hp

/-- C6: for all existing-term sets E and candidate sets C, every element of
the resolved output has a truthy (non-empty) original — empty or absent
originals are silently dropped by the filter, which is total and raises no
error — and its lowercased original differs from the lowercased original of
every element of E. -/
theorem c6_resolve_filter (C : List RawTerm) (E : List Term) (t : RawTerm)
    (ht : t ∈ uniqueNewTerms C E) :
    truthyStr t.original = true ∧
      ∀ e ∈ E, jsToLower (t.original.getD "") ≠ jsToLower e.original := by
  obtain ⟨h1, h2⟩ := mem_uniqueNewTerms ht
  refine ⟨h1, ?_⟩
  intro e he heq
  rw [List.contains, List.elem_eq_mem, decide_eq_false_iff_not] at h2
  exact h2 (List.mem_map.mpr ⟨e, he, heq.symm⟩)

/-- Surviving candidate fixture for the C6 witness. -/
def xyCand : RawTerm := { original := some "Xy", category := none }

/-- Dropped empty-original candidate fixture. -/
def emptyCand : RawTerm := { original := some "", category := none }

/-- Candidate fixture that collides case-insensitively with the glossary. -/
def abCand : RawTerm := { original := some "Ab", category := none }

/-- Existing glossary term fixture. -/
def abTerm : Term :=
  { novelId := 1, original := "AB", translation := "x",
    category := "Other", isLocked := false }

/-- C6 witness: concrete run of the resolver in which a candidate survives
the filter. -/
theorem c6_resolve_filter_witness :
    truthyStr xyCand.original = true ∧
      ∀ e ∈ [abTerm], jsToLower (xyCand.original.getD "") ≠ jsToLower e.original :=
  c6_resolve_filter [emptyCand, abCand, xyCand] [abTerm] xyCand (by decide)

/-- Candidate fixture for the duplicate-collapse scenario. -/
def zhangSan : RawTerm := { original := some "Zhang San", category := some "Person" }

/-- C1: the claim states that duplicate candidates within one batch collapse
to a single resolved entry, so three Zhang San candidates with no existing
terms yield one resolved candidate and one inserted Term. The resolver only
filters against the pre-existing glossary set, which is not updated inside
the batch, so all three duplicates survive resolution and three Terms are
inserted. -/
theorem c1_dup_candidates_not_collapsed :
    (uniqueNewTerms [zhangSan, zhangSan, zhangSan] []).length = 3 ∧
      (deepScanInsertedTerms 1 "Zhang San went home" [zhangSan, zhangSan, zhangSan] []
          fun _ _ => GenResult.err).length = 3 ∧
      ((deepScanInsertedTerms 1 "Zhang San went home" [zhangSan, zhangSan, zhangSan] []
          fun _ _ => GenResult.err).map fun t => t.original)
        = ["Zhang San", "Zhang San", "Zhang San"] := by
  decide

/-- C2 counterexample: a successful collaborator response whose text happens
to equal the error sentinel is indistinguishable from a thrown collaborator
error — the operation returns the same bare string for both, so no caller
can decide success from the result without sentinel comparison, and the
result carries no success flag or tag. -/
theorem c2_counterexample :
    translateChapterWithGlossary "some text" []
        (fun _ => GenResult.ok
          (some "Error generating translation. Please check API Key or quota."))
      = translateChapterWithGlossary "some text" [] (fun _ => GenResult.err) := by
  decide

/-- C2 amended: the document translation operation signals failure through
sentinel text in the returned translation string: a thrown collaborator
error yields the error sentinel, an absent or empty response text yields
the failure sentinel, and a non-empty response text is returned verbatim;
no separate success flag or tagged result is produced. -/
theorem c2_sentinel_signaling (content : String) (glossary : List Term)
    (gen : String → GenResult) :
    (gen (chapterPrompt content glossary) = GenResult.err →
        translateChapterWithGlossary content glossary gen
          = "Error generating translation. Please check API Key or quota.") ∧
      (gen (chapterPrompt content glossary) = GenResult.ok none →
        translateChapterWithGlossary content glossary gen = "Translation failed.") ∧
      (∀ s, gen (chapterPrompt content glossary) = GenResult.ok (some s) →
        s.isEmpty = false →
        translateChapterWithGlossary content glossary gen = s) := by
  refine ⟨fun h => ?_, fun h => ?_, fun s h hs => ?_⟩
  · unfold translateChapterWithGlossary
    rw [h]
  · unfold translateChapterWithGlossary
    rw [h]
    rfl
  · unfold translateChapterWithGlossary
    rw [h]
    show (if s.isEmpty = true then "Translation failed." else s) = s
    rw [hs]
    rfl

/-- C2 witness: the error sentinel is returned for a concrete thrown
collaborator error. -/
theorem c2_sentinel_signaling_witness :
    translateChapterWithGlossary "abc" [] (fun _ => GenResult.err)
      = "Error generating translation. Please check API Key or quota." :=
  (c2_sentinel_signaling "abc" [] fun _ => GenResult.err).1 rfl

/-- C7 counterexample: with a two-chapter corpus, the head, middle and tail
slices overlap and filter(Boolean) removes nothing, so the sample repeats
chapter texts — the claim that each document text appears at most once in
the sample is false. -/
theorem c7_counterexample :
    ((sampleChapters [chU, chU2]).map fun c => c.content)
        = ["src one", "src two", "src two", "src one", "src two"] ∧
      ¬ ((sampleChapters [chU, chU2]).map fun c => c.content).Nodup := by
  decide

/-- C7 amended: for every document sequence the sample is exactly the first
three documents, then the middle document by index when present, then the
last three documents, without any deduplication (overlapping slices repeat
documents whenever the corpus has six or fewer entries), and the combined
text joins the sampled contents with a blank-line separator. -/
theorem c7_sample_shape (chapters : List Chapter) :
    sampleChapters chapters
        = chapters.take 3 ++ (chapters.get? (chapters.length / 2)).toList
            ++ chapters.drop (chapters.length - 3) ∧
      combinedTextOf chapters
        = String.intercalate "\n\n"
            ((chapters.take 3 ++ (chapters.get? (chapters.length / 2)).toList
                ++ chapters.drop (chapters.length - 3)).map fun c => c.content) := by
  have h1 : sampleChapters chapters
      = chapters.take 3 ++ (chapters.get? (chapters.length / 2)).toList
          ++ chapters.drop (chapters.length - 3) := by
    unfold sampleChapters
    rw [List.filterMap_append, List.filterMap_append, List.filterMap_map,
      List.filterMap_map]
    simp only [Function.id_comp, List.filterMap_some]
    cases chapters.get? (chapters.length / 2) <;> simp
  exact ⟨h1, by unfold combinedTextOf; rw [h1]⟩

/-- Found indexes returned by the indexOf scan are bounded by the start
index plus the haystack length. -/
theorem jsIndexOfAux_le (needle : List Char) :
    ∀ (hay : List Char) (i n : Nat),
      jsIndexOfAux needle hay i = (n : Int) → n ≤ i + hay.length := by
  intro hay
  induction hay with
  | nil =>
    intro i n h
    unfold jsIndexOfAux at h
    by_cases hs : startsWithL [] needle = true
    · rw [if_pos hs] at h
      omega
    · rw [if_neg hs] at h
      omega
  | cons c t ih =>
    intro i n h
    unfold jsIndexOfAux at h
    by_cases hs : startsWithL (c :: t) needle = true
    · rw [if_pos hs] at h
      simp only [List.length_cons]
      omega
    · rw [if_neg hs] at h
      have := ih (i + 1) n h
      simp only [List.length_cons]
      omega

/-- jsSubstring with in-range Nat endpoints is drop-then-take. -/
theorem jsSubstring_eq (s : String) (a b : Nat) (hab : a ≤ b)
    (ha : a ≤ s.toList.length) :
    jsSubstring s (a : Int) (b : Int) = String.mk ((s.toList.drop a).take (b - a)) := by
  unfold jsSubstring
  simp only [Int.toNat_ofNat]
  have h1 : min a s.toList.length = a := by omega
  have h2 : min a (min b s.toList.length) = a := by omega
  have h3 : max (min a s.toList.length) (min b s.toList.length)
      = min b s.toList.length := by omega
  rw [h1, h2]
  rw [h1] at h3
  rw [h3]
  congr 1
  rw [List.take_eq_take]
  simp only [List.length_drop]
  omega

/-- C9 counterexample: for a sample not containing the term, indexOf yields
-1 and the snippet passed to the term-translation capability is the head of
the sample (unrelated text), not the empty string the claim requires. -/
theorem c9_counterexample :
    jsIndexOf "abcdef" "zz" = -1 ∧ contextSnippet "abcdef" "zz" = "abcdef" ∧
      ("abcdef" : String) ≠ "" := by
  decide

/-- C9 amended: when the term does not occur in the sample, indexOf yields
-1 and substring(-1, 99) clamps to the first ninety-nine characters of the
sample, so the capability is invoked with that head snippet rather than an
empty one; when the term occurs at first index n, the snippet is the
hundred-character window starting at n. -/
theorem c9_context_snippet (sample term : String) :
    (jsIndexOf sample term = -1 →
        contextSnippet sample term = String.mk (sample.toList.take 99)) ∧
      (∀ n : Nat, jsIndexOf sample term = (n : Int) →
        contextSnippet sample term = String.mk ((sample.toList.drop n).take 100)) := by
  constructor
  · intro h
    unfold contextSnippet
    rw [h]
    have h99 : (-1 : Int) + 100 = ((99 : Nat) : Int) := by norm_num
    rw [h99]
    have hsw : jsSubstring sample (-1) ((99 : Nat) : Int)
        = jsSubstring sample ((0 : Nat) : Int) ((99 : Nat) : Int) := rfl
    rw [hsw, jsSubstring_eq sample 0 99 (by omega) (by omega)]
    simp
  · intro n h
    unfold contextSnippet
    rw [h]
    have hn : n ≤ sample.toList.length := by
      have := jsIndexOfAux_le term.toList sample.toList 0 n h
      omega
    have h100 : ((n : Int)) + 100 = (((n + 100 : Nat)) : Int) := by push_cast; ring
    rw [h100, jsSubstring_eq sample n (n + 100) (by omega) hn]
    have harith : n + 100 - n = 100 := by omega
    rw [harith]

/-- C9 witness: a concrete term occurring in a concrete sample receives the
window starting at its first occurrence. -/
theorem c9_context_snippet_witness :
    contextSnippet "xx Zhang San yy" "Zhang San"
      = String.mk ((("xx Zhang San yy" : String).toList.drop 3).take 100) :=
  (c9_context_snippet "xx Zhang San yy" "Zhang San").2 3 (by decide)

/-- A filterMap whose guard always passes is a map. -/
theorem filterMap_guard_eq_map {α β : Type} (p : α → Bool) (g : α → β) :
    ∀ l : List α, (∀ x ∈ l, p x = true) →
      (l.filterMap fun x => if p x = false then none else some (g x)) = l.map g := by
  intro l
  induction l with
  | nil => intro _; rfl
  | cons a t ih =>
    intro h
    have ha : p a = true := h a (List.mem_cons_self a t)
    rw [List.filterMap_cons, List.map_cons]
    simp only [ha]
    rw [ih fun x hx => h x (List.mem_cons_of_mem a hx)]
    rfl

/-- The deep-scan insertion loop inserts one Term per resolved candidate:
the continue guard never fires because the resolver keeps only truthy
originals. -/
theorem deepScanInsertedTerms_eq_map (novelId : Nat) (combined : String)
    (rawTs : List RawTerm) (existing : List Term)
    (O : String → String → GenResult) :
    deepScanInsertedTerms novelId combined rawTs existing O
      = (uniqueNewTerms rawTs existing).map (deepScanTermOf novelId combined O) := by
  unfold deepScanInsertedTerms
  exact filterMap_guard_eq_map (fun t => truthyStr t.original)
    (deepScanTermOf novelId combined O) (uniqueNewTerms rawTs existing)
    fun t ht => (mem_uniqueNewTerms ht).1

/-- On a thrown term-translation response the inserted Term falls back to
the original text as its translation. -/
theorem deepScanTermOf_err (novelId : Nat) (combined : String)
    (O : String → String → GenResult) (t : RawTerm)
    (hO : O (t.original.getD "") (contextSnippet combined (t.original.getD ""))
      = GenResult.err) :
    deepScanTermOf novelId combined O t
      = termRecordOf novelId t (t.original.getD "") := by
  unfold deepScanTermOf
  rw [hO]
  rfl

/-- C8: the deep scan inserts exactly one Term per resolved candidate, so a
single-term collaborator failure never aborts the remaining insertions, and
the candidate whose term-translation call fails is inserted with its
original text as its own translation. -/
theorem c8_term_fallback (novelId : Nat) (combined : String) (rawTs : List RawTerm)
    (existing : List Term) (O : String → String → GenResult) :
    (deepScanInsertedTerms novelId combined rawTs existing O).length
        = (uniqueNewTerms rawTs existing).length
      ∧ ∀ i t, (uniqueNewTerms rawTs existing).get? i = some t →
          O (t.original.getD "") (contextSnippet combined (t.original.getD ""))
            = GenResult.err →
          (deepScanInsertedTerms novelId combined rawTs existing O).get? i
            = some { novelId := novelId, original := t.original.getD "",
                     translation := t.original.getD "",
                     category := jsOrStr t.category "Other", isLocked := false } := by
  rw [deepScanInsertedTerms_eq_map]
  refine ⟨List.length_map _ _, ?_⟩
  intro i t ht hO
  rw [List.get?_map, ht]
  simp only [Option.map_some']
  rw [deepScanTermOf_err novelId combined O t hO]
  rfl

/-- Candidate fixture for the C8 witness. -/
def liSiCand : RawTerm := { original := some "Li Si", category := none }

/-- C8 witness: concrete scan in which the term-translation collaborator
throws for the only candidate; the inserted Term carries the original text
as its translation. -/
theorem c8_term_fallback_witness :
    (deepScanInsertedTerms 1 "Li Si trains" [liSiCand] []
        fun _ _ => GenResult.err).get? 0
      = some { novelId := 1, original := "Li Si", translation := "Li Si",
               category := jsOrStr liSiCand.category "Other", isLocked := false } :=
  (c8_term_fallback 1 "Li Si trains" [liSiCand] [] fun _ _ => GenResult.err).2 0
    liSiCand (by decide) rfl

/-- The pause-wait only moves time forward. -/
theorem pauseWait_le (env : BulkEnv) :
    ∀ (fuel t t1 : Nat), pauseWait env fuel t = some t1 → t ≤ t1 := by
  intro fuel
  induction fuel with
  | zero =>
    intro t t1 h
    exact absurd h (by simp [pauseWait])
  | succ f ih =>
    intro t t1 h
    unfold pauseWait at h
    by_cases hc : (stopSig env t = false && env.paused t) = true
    · rw [if_pos hc] at h
      have := ih (t + 1) t1 h
      omega
    · rw [if_neg hc] at h
      have := Option.some.inj h
      omega

/-- With the pause flag never set, the wait exits at once. -/
theorem pauseWait_noPause (env : BulkEnv) (hpause : ∀ t, env.paused t = false) :
    ∀ (fuel t : Nat), 1 ≤ fuel → pauseWait env fuel t = some t := by
  intro fuel t hfuel
  match fuel, hfuel with
  | f + 1, _ => simp [pauseWait, hpause t]

/-- Field reduction for the record patch performed by updateChapter. -/
theorem updTC_id (txt : String) (ts : Nat) (c : Chapter) :
    (updTC txt ts c).id = c.id := rfl

/-- Updating one id leaves lookups of other ids unchanged. -/
theorem findById_updateChapter_ne (cid cid2 : Nat) (txt : String) (ts : Nat)
    (hne : cid2 ≠ cid) :
    ∀ db : List Chapter,
      findById (updateChapter db cid txt ts) cid2 = findById db cid2 := by
  intro db
  induction db with
  | nil => rfl
  | cons c rest ih =>
    unfold updateChapter at ih ⊢
    unfold findById at ih ⊢
    rw [List.map_cons, List.find?_cons, List.find?_cons]
    by_cases hc : c.id = cid
    · rw [if_pos hc]
      have hd1 : decide ((updTC txt ts c).id = cid2) = false := by
        rw [updTC_id, hc]
        simp [Ne.symm hne]
      have hd2 : decide (c.id = cid2) = false := by
        rw [hc]
        simp [Ne.symm hne]
      rw [hd1, hd2]
      exact ih
    · rw [if_neg hc]
      by_cases hc2 : c.id = cid2
      · simp [hc2]
      · simp only [decide_eq_false hc2]
        exact ih

/-- Updating an id maps its lookup through the record patch. -/
theorem findById_updateChapter_self (cid : Nat) (txt : String) (ts : Nat) :
    ∀ db : List Chapter,
      findById (updateChapter db cid txt ts) cid
        = (findById db cid).map (updTC txt ts) := by
  intro db
  induction db with
  | nil => rfl
  | cons c rest ih =>
    unfold updateChapter at ih ⊢
    unfold findById at ih ⊢
    rw [List.map_cons, List.find?_cons, List.find?_cons]
    by_cases hc : c.id = cid
    · rw [if_pos hc]
      have hd1 : decide ((updTC txt ts c).id = cid) = true := by
        rw [updTC_id, hc]
        simp
      have hd2 : decide (c.id = cid) = true := by simp [hc]
      rw [hd1, hd2]
      rfl
    · rw [if_neg hc]
      simp only [decide_eq_false hc]
      exact ih

/-- In an id-distinct chapter list, lookup of a member id returns the
member. -/
theorem findById_self (c : Chapter) :
    ∀ chapters : List Chapter,
      (chapters.Pairwise fun a b => a.id ≠ b.id) → c ∈ chapters →
      findById chapters c.id = some c := by
  intro chapters
  induction chapters with
  | nil => intro _ h; cases h
  | cons d rest ih =>
    intro hpw hc
    rw [List.pairwise_cons] at hpw
    unfold findById at ih ⊢
    rw [List.find?_cons]
    rcases List.mem_cons.mp hc with rfl | hmem
    · simp
    · have hd : d.id ≠ c.id := hpw.1 c hmem
      rw [decide_eq_false hd]
      exact ih hpw.2 hmem

/-- Members of an indexed queue are members of the underlying list. -/
theorem snd_mem_of_mem_enumFrom {α : Type} :
    ∀ (l : List α) (n : Nat) (p : Nat × α), p ∈ l.enumFrom n → p.2 ∈ l := by
  intro l
  induction l with
  | nil => intro n p h; cases h
  | cons a t ih =>
    intro n p h
    rw [List.enumFrom_cons] at h
    rcases List.mem_cons.mp h with rfl | h2
    · exact List.mem_cons_self _ _
    · exact List.mem_cons_of_mem _ (ih (n + 1) p h2)

/-- The bulk loop never changes records whose id is outside its queue. -/
theorem runBulkAux_untouched (glossary : List Term) (env : BulkEnv) (fuel : Nat)
    (cid : Nat) :
    ∀ (qs : List (Nat × Chapter)) (t : Nat) (db : List Chapter),
      (∀ p ∈ qs, (p.2).id ≠ cid) →
      findById (runBulkAux glossary env fuel qs t db).1 cid = findById db cid := by
  intro qs
  induction qs with
  | nil => intro t db _; rfl
  | cons q rest ih =>
    intro t db hq
    obtain ⟨i, ch⟩ := q
    by_cases hs : stopSig env t = true
    · simp [runBulkAux, hs]
    · cases hw : pauseWait env fuel t with
      | none => simp [runBulkAux, hs, hw]
      | some t1 =>
        have hch : ch.id ≠ cid := hq (i, ch) (List.mem_cons_self _ _)
        have hrest : ∀ p ∈ rest, (p.2).id ≠ cid :=
          fun p hp => hq p (List.mem_cons_of_mem _ hp)
        by_cases hp : env.persistOk i = true
        · simp only [runBulkAux, hs, hw, hp, if_false, if_true, Bool.false_eq_true]
          rw [ih (t1 + 1) _ hrest]
          exact findById_updateChapter_ne ch.id cid _ t1 (Ne.symm hch) db
        · simp only [runBulkAux, hs, hw, hp, if_false, Bool.false_eq_true]
          exact ih (t1 + 1) db hrest

/-- C5: a batch run only ever updates ids drawn from its queue of chapters
lacking translatedText, so every already-translated chapter record is left
exactly as it was — re-running start after a completed run is a no-op over
already-translated documents. -/
theorem c5_idempotent_start (chapters : List Chapter) (glossary : List Term)
    (env : BulkEnv) (fuel : Nat) (c : Chapter)
    (hids : chapters.Pairwise fun a b => a.id ≠ b.id)
    (hc : c ∈ chapters) (hdone : isUntranslated c = false) :
    findById (startBulkTranslation chapters glossary env fuel).1 c.id = some c := by
  unfold startBulkTranslation
  by_cases h0 : (chapters.filter fun x => isUntranslated x).length = 0
  · simp only [h0, if_pos]
    exact findById_self c chapters hids hc
  · simp only [h0, if_neg, if_false]
    have hq : ∀ p ∈ (chapters.filter fun x => isUntranslated x).enum,
        (p.2).id ≠ c.id := by
      intro p hp
      have hmem : p.2 ∈ chapters.filter fun x => isUntranslated x := by
        rw [List.enum_eq_enumFrom] at hp
        exact snd_mem_of_mem_enumFrom _ 0 p hp
      rw [List.mem_filter] at hmem
      have hne : p.2 ≠ c := by
        intro he
        rw [he, hdone] at hmem
        exact Bool.false_ne_true hmem.2
      have hsymm : Symmetric fun a b : Chapter => a.id ≠ b.id :=
        fun _ _ h he => h he.symm
      exact List.Pairwise.forall hsymm hids hmem.1 hc hne
    rw [runBulkAux_untouched glossary env fuel c.id _ 0 chapters hq]
    exact findById_self c chapters hids hc

/-- C5 witness: concrete run over one translated and one untranslated
chapter; the translated record is unchanged. -/
theorem c5_idempotent_start_witness :
    findById (startBulkTranslation [chT, chU] [] envOk 1).1 chT.id = some chT :=
  c5_idempotent_start [chT, chU] [] envOk 1 chT (by decide) (by decide) (by decide)

/-- After the stop tick the loop dispatches at most one further item: the
pre-item check observes the stop at the next iteration, and a run whose
current tick is already past the stop dispatches nothing. -/
theorem runBulkAux_stop (glossary : List Term) (env : BulkEnv) (fuel T : Nat)
    (hT : env.stopAt = some T) :
    ∀ (qs : List (Nat × Chapter)) (t : Nat) (db : List Chapter),
      ((runBulkAux glossary env fuel qs t db).2.countP
          fun e => decide (T ≤ e.time)) ≤ 1
        ∧ (T ≤ t → (runBulkAux glossary env fuel qs t db).2 = []) := by
  intro qs
  induction qs with
  | nil =>
    intro t db
    exact ⟨by simp [runBulkAux], fun _ => rfl⟩
  | cons q rest ih =>
    intro t db
    obtain ⟨i, ch⟩ := q
    by_cases hs : stopSig env t = true
    · refine ⟨by simp [runBulkAux, hs], fun _ => by simp [runBulkAux, hs]⟩
    · have hlt : ¬ T ≤ t := by
        unfold stopSig at hs
        rw [hT] at hs
        simpa using hs
      cases hw : pauseWait env fuel t with
      | none =>
        refine ⟨by simp [runBulkAux, hs, hw], fun h => absurd h hlt⟩
      | some t1 =>
        have hcount : ∀ e : BulkEvent, e.time = t1 → ∀ db2 : List Chapter,
            ((e :: (runBulkAux glossary env fuel rest (t1 + 1) db2).2).countP
                fun x => decide (T ≤ x.time)) ≤ 1 := by
          intro e he db2
          rw [List.countP_cons]
          by_cases hTt : T ≤ t1
          · have hnil : (runBulkAux glossary env fuel rest (t1 + 1) db2).2 = [] :=
              (ih (t1 + 1) db2).2 (by omega)
            rw [hnil]
            simp only [List.countP_nil, Nat.zero_add]
            split <;> omega
          · have h1 := (ih (t1 + 1) db2).1
            have he2 : decide (T ≤ e.time) = false := by
              rw [he]
              simpa using hTt
            rw [he2]
            simpa using h1
        by_cases hp : env.persistOk i = true
        · constructor
          · simp only [runBulkAux, hs, hw, hp, Bool.false_eq_true, if_false, if_true]
            exact hcount (BulkEvent.translated i t1) rfl _
          · intro h
            exact absurd h hlt
        · constructor
          · simp only [runBulkAux, hs, hw, hp, Bool.false_eq_true, if_false]
            exact hcount (BulkEvent.caught i t1) rfl _
          · intro h
            exact absurd h hlt

/-- C4: the claim that no further item begins translation once a stop is
requested holds only up to the one item already past its pre-check: among
all per-item dispatch events, at most one occurs at or after the stop tick,
and if the stop was requested before the run started then the run dispatches
nothing and leaves every chapter record unchanged. -/
theorem c4_stop_semantics (chapters : List Chapter) (glossary : List Term)
    (env : BulkEnv) (fuel T : Nat) (hT : env.stopAt = some T) :
    (((startBulkTranslation chapters glossary env fuel).2.countP
        fun e => decide (T ≤ e.time)) ≤ 1)
      ∧ (T = 0 → startBulkTranslation chapters glossary env fuel = (chapters, [])) := by
  constructor
  · unfold startBulkTranslation
    by_cases h0 : (chapters.filter fun x => isUntranslated x).length = 0
    · simp [h0]
    · simp only [h0, if_neg, if_false]
      exact (runBulkAux_stop glossary env fuel T hT _ 0 chapters).1
  · intro hT0
    unfold startBulkTranslation
    by_cases h0 : (chapters.filter fun x => isUntranslated x).length = 0
    · simp [h0]
    · simp only [h0, if_neg, if_false]
      cases hq : (chapters.filter fun x => isUntranslated x).enum with
      | nil => rfl
      | cons q rest =>
        obtain ⟨i, ch⟩ := q
        have hstop0 : stopSig env 0 = true := by
          unfold stopSig
          rw [hT, hT0]
          rfl
        simp [runBulkAux, hstop0]

/-- Environment fixture with a stop requested before the run starts. -/
def envStopNow : BulkEnv :=
  { gen := fun _ => GenResult.ok (some "T1"), persistOk := fun _ => true,
    stopAt := some 0, paused := fun _ => false }

/-- C4 witness: with the stop requested at tick zero the run over one
pending chapter dispatches nothing and returns the records unchanged. -/
theorem c4_stop_semantics_witness :
    (((startBulkTranslation [chU] [] envStopNow 1).2.countP
        fun e => decide (0 ≤ e.time)) ≤ 1)
      ∧ (0 = 0 → startBulkTranslation [chU] [] envStopNow 1 = ([chU], [])) :=
  c4_stop_semantics [chU] [] envStopNow 1 0 rfl

/-- Environment fixture: pause is set at tick zero and the stop arrives at
tick one, while the wait is polling. -/
def envStopDuringPause : BulkEnv :=
  { gen := fun _ => GenResult.ok (some "X"), persistOk := fun _ => true,
    stopAt := some 1, paused := fun t => decide (t = 0) }

/-- C4 counterexample: the stop is requested at tick one while the run is
paused before its first item; the pause-wait exits on the stop but the item
is still dispatched at tick one and persisted, so an item begins
translation after the stop request and the remaining item does not stay
unset — the claim fails on this schedule. -/
theorem c4_counterexample :
    envStopDuringPause.stopAt = some 1
      ∧ (startBulkTranslation [chU] [] envStopDuringPause 2).2
          = [BulkEvent.translated 0 1]
      ∧ findById (startBulkTranslation [chU] [] envStopDuringPause 2).1 chU.id
          = some (updTC "X" 1 chU) := by
  decide

/-- A caught event can only come from a failing persistence call: the
translation value itself is always an ordinary string. -/
theorem runBulkAux_caught_persist (glossary : List Term) (env : BulkEnv)
    (fuel : Nat) :
    ∀ (qs : List (Nat × Chapter)) (t : Nat) (db : List Chapter) (i ti : Nat),
      BulkEvent.caught i ti ∈ (runBulkAux glossary env fuel qs t db).2 →
      env.persistOk i = false := by
  intro qs
  induction qs with
  | nil =>
    intro t db i ti h
    cases h
  | cons q rest ih =>
    intro t db i ti h
    obtain ⟨j, ch⟩ := q
    by_cases hs : stopSig env t = true
    · rw [show (runBulkAux glossary env fuel ((j, ch) :: rest) t db).2 = [] by
        simp [runBulkAux, hs]] at h
      cases h
    · cases hw : pauseWait env fuel t with
      | none =>
        rw [show (runBulkAux glossary env fuel ((j, ch) :: rest) t db).2 = [] by
          simp [runBulkAux, hs, hw]] at h
        cases h
      | some t1 =>
        by_cases hp : env.persistOk j = true
        · rw [show (runBulkAux glossary env fuel ((j, ch) :: rest) t db).2
              = BulkEvent.translated j t1 :: (runBulkAux glossary env fuel rest (t1 + 1)
                (updateChapter db ch.id (translateChapterWithGlossary ch.content glossary
                  env.gen) t1)).2 by
            simp [runBulkAux, hs, hw, hp]] at h
          rcases List.mem_cons.mp h with hhd | htl
          · cases hhd
          · exact ih (t1 + 1) _ i ti htl
        · rw [show (runBulkAux glossary env fuel ((j, ch) :: rest) t db).2
              = BulkEvent.caught j t1 :: (runBulkAux glossary env fuel rest
                (t1 + 1) db).2 by
            simp [runBulkAux, hs, hw, hp]] at h
          rcases List.mem_cons.mp h with hhd | htl
          · cases hhd
            simpa using hp
          · exact ih (t1 + 1) db i ti htl

/-- C10: the document translation function is total over every collaborator
outcome: it always returns a non-empty string, a thrown collaborator error
is mapped to the error sentinel rather than propagated, and in the batch
loop the per-item catch branch fires only when the persistence update
fails — never for a translator failure. -/
theorem c10_translator_total (content : String) (glossary : List Term)
    (gen : String → GenResult) :
    (translateChapterWithGlossary content glossary gen).isEmpty = false
      ∧ (gen (chapterPrompt content glossary) = GenResult.err →
          translateChapterWithGlossary content glossary gen
            = "Error generating translation. Please check API Key or quota.")
      ∧ (∀ (chapters : List Chapter) (env : BulkEnv) (fuel i ti : Nat),
          BulkEvent.caught i ti ∈ (startBulkTranslation chapters glossary env fuel).2 →
          env.persistOk i = false) := by
  refine ⟨?_, fun h => by unfold translateChapterWithGlossary; rw [h], ?_⟩
  · unfold translateChapterWithGlossary
    cases hg : gen (chapterPrompt content glossary) with
    | err => rfl
    | ok text =>
      cases text with
      | none => rfl
      | some s =>
        show (if s.isEmpty = true then "Translation failed." else s).isEmpty = false
        by_cases hs : s.isEmpty = true
        · rw [if_pos hs]
          rfl
        · rw [if_neg hs]
          simpa using hs
  · intro chapters env fuel i ti h
    unfold startBulkTranslation at h
    by_cases h0 : (chapters.filter fun x => isUntranslated x).length = 0
    · simp only [h0, if_pos] at h
      cases h
    · simp only [h0, if_neg, if_false] at h
      exact runBulkAux_caught_persist glossary env fuel _ 0 chapters i ti h

/-- Environment fixture with an always-failing persistence collaborator. -/
def envPersistFail : BulkEnv :=
  { gen := fun _ => GenResult.ok (some "T1"), persistOk := fun _ => false,
    stopAt := none, paused := fun _ => false }

/-- C10 witness: the error sentinel at a concrete thrown error, and a
concrete caught event traced back to its failing persistence flag. -/
theorem c10_translator_total_witness :
    translateChapterWithGlossary "x" [] (fun _ => GenResult.err)
        = "Error generating translation. Please check API Key or quota."
      ∧ envPersistFail.persistOk 0 = false :=
  ⟨(c10_translator_total "x" [] fun _ => GenResult.err).2.1 rfl,
    (c10_translator_total "x" [] fun _ => GenResult.ok (some "T1")).2.2
      [chU] envPersistFail 1 0 0 (by decide)⟩

/-- Environment fixture: the document-translation collaborator throws for
every request while persistence succeeds. -/
def envGenFails : BulkEnv :=
  { gen := fun _ => GenResult.err, persistOk := fun _ => true,
    stopAt := none, paused := fun _ => false }

/-- C3 counterexample: when the translator collaborator fails for the only
queue item, the claim says the item advances with translatedText left
unset; instead the call returns the error sentinel, which the scheduler
persists as the translation together with lastTranslatedAt. -/
theorem c3_counterexample :
    findById (startBulkTranslation [chU] [] envGenFails 1).1 chU.id
      = some (updTC "Error generating translation. Please check API Key or quota."
          0 chU) := by
  decide

/-- With no stop and no pause, the loop over the queue starting at tick t
processes every item: one event per item, each successfully persisted item
ends with its translation and timestamp recorded, and each item whose
persistence fails is logged as caught and left unchanged. -/
theorem runBulkAux_noPause (glossary : List Term) (env : BulkEnv) (fuel : Nat)
    (hstop : env.stopAt = none) (hpause : ∀ t, env.paused t = false)
    (hfuel : 1 ≤ fuel) :
    ∀ (cs : List Chapter) (t : Nat) (db : List Chapter),
      (cs.Pairwise fun a b => a.id ≠ b.id) →
      (∀ c ∈ cs, findById db c.id = some c) →
      ((runBulkAux glossary env fuel (cs.enumFrom t) t db).2.length = cs.length
        ∧ (∀ p ∈ cs.enumFrom t, env.persistOk p.1 = true →
            findById (runBulkAux glossary env fuel (cs.enumFrom t) t db).1 (p.2).id
              = some (updTC (translateChapterWithGlossary (p.2).content glossary
                  env.gen) p.1 p.2))
        ∧ (∀ p ∈ cs.enumFrom t, env.persistOk p.1 = false →
            findById (runBulkAux glossary env fuel (cs.enumFrom t) t db).1 (p.2).id
                = some p.2
              ∧ BulkEvent.caught p.1 p.1
                  ∈ (runBulkAux glossary env fuel (cs.enumFrom t) t db).2)) := by
  have hss : ∀ t, stopSig env t = false := by
    intro t
    unfold stopSig
    rw [hstop]
  intro cs
  induction cs with
  | nil =>
    intro t db _ _
    refine ⟨rfl, ?_, ?_⟩ <;> intro p hp <;> cases hp
  | cons c cs2 ih =>
    intro t db hpw hdb
    rw [List.pairwise_cons] at hpw
    have hpw2 : pauseWait env fuel t = some t := pauseWait_noPause env hpause fuel t hfuel
    have hqrest : ∀ q ∈ cs2.enumFrom (t + 1), (q.2).id ≠ c.id := by
      intro q hq
      exact Ne.symm (hpw.1 q.2 (snd_mem_of_mem_enumFrom cs2 (t + 1) q hq))
    by_cases hp : env.persistOk t = true
    · have hred : runBulkAux glossary env fuel ((c :: cs2).enumFrom t) t db
          = ((runBulkAux glossary env fuel (cs2.enumFrom (t + 1)) (t + 1)
              (updateChapter db c.id (translateChapterWithGlossary c.content glossary
                env.gen) t)).1,
             BulkEvent.translated t t
               :: (runBulkAux glossary env fuel (cs2.enumFrom (t + 1)) (t + 1)
                 (updateChapter db c.id (translateChapterWithGlossary c.content glossary
                   env.gen) t)).2) := by
        rw [List.enumFrom_cons]
        simp [runBulkAux, hss t, hpw2, hp]
      have hdb2 : ∀ x ∈ cs2,
          findById (updateChapter db c.id (translateChapterWithGlossary c.content
            glossary env.gen) t) x.id = some x := by
        intro x hx
        rw [findById_updateChapter_ne c.id x.id _ t (Ne.symm (hpw.1 x hx))]
        exact hdb x (List.mem_cons_of_mem _ hx)
      obtain ⟨ihlen, ihpos, ihneg⟩ := ih (t + 1) _ hpw.2 hdb2
      rw [hred]
      refine ⟨?_, ?_, ?_⟩
      · simp only [List.length_cons, ihlen, List.enumFrom_cons]
      · intro p hp2 hpok
        rw [List.enumFrom_cons] at hp2
        rcases List.mem_cons.mp hp2 with rfl | htl
        · rw [runBulkAux_untouched glossary env fuel c.id _ (t + 1) _ hqrest]
          rw [findById_updateChapter_self c.id _ t db]
          rw [hdb c (List.mem_cons_self _ _)]
          rfl
        · exact ihpos p htl hpok
      · intro p hp2 hpok
        rw [List.enumFrom_cons] at hp2
        rcases List.mem_cons.mp hp2 with rfl | htl
        · rw [hp] at hpok
          cases hpok
        · obtain ⟨h1, h2⟩ := ihneg p htl hpok
          exact ⟨h1, List.mem_cons_of_mem _ h2⟩
    · have hred : runBulkAux glossary env fuel ((c :: cs2).enumFrom t) t db
          = ((runBulkAux glossary env fuel (cs2.enumFrom (t + 1)) (t + 1) db).1,
             BulkEvent.caught t t
               :: (runBulkAux glossary env fuel (cs2.enumFrom (t + 1)) (t + 1) db).2) := by
        rw [List.enumFrom_cons]
        simp [runBulkAux, hss t, hpw2, hp]
      have hdb2 : ∀ x ∈ cs2, findById db x.id = some x :=
        fun x hx => hdb x (List.mem_cons_of_mem _ hx)
      obtain ⟨ihlen, ihpos, ihneg⟩ := ih (t + 1) db hpw.2 hdb2
      rw [hred]
      refine ⟨?_, ?_, ?_⟩
      · simp only [List.length_cons, ihlen, List.enumFrom_cons]
      · intro p hp2 hpok
        rw [List.enumFrom_cons] at hp2
        rcases List.mem_cons.mp hp2 with rfl | htl
        · rw [hpok] at hp
          cases hp rfl
        · exact ihpos p htl hpok
      · intro p hp2 hpok
        rw [List.enumFrom_cons] at hp2
        rcases List.mem_cons.mp hp2 with rfl | htl
        · constructor
          · rw [runBulkAux_untouched glossary env fuel c.id _ (t + 1) db hqrest]
            exact hdb c (List.mem_cons_self _ _)
          · exact List.mem_cons_self _ _
        · obtain ⟨h1, h2⟩ := ihneg p htl hpok
          exact ⟨h1, List.mem_cons_of_mem _ h2⟩

/-- C3 amended: with no stop or pause, a bulk run processes every queued
item regardless of per-item translator outcomes — one event per item, so
one item never halts the batch. For an item whose persistence succeeds the
scheduler always records a translation and timestamp: when the translator
collaborator fails, the recorded translation is the returned error sentinel
rather than leaving translatedText unset. Only an item whose persistence
update throws is caught, logged and left unchanged, with every other item
still processed. -/
theorem c3_partial_failure_isolation (chapters : List Chapter) (glossary : List Term)
    (env : BulkEnv) (fuel : Nat)
    (hids : chapters.Pairwise fun a b => a.id ≠ b.id)
    (hstop : env.stopAt = none) (hpause : ∀ t, env.paused t = false)
    (hfuel : 1 ≤ fuel) :
    ((startBulkTranslation chapters glossary env fuel).2.length
        = (chapters.filter fun c => isUntranslated c).length)
      ∧ (∀ p ∈ (chapters.filter fun c => isUntranslated c).enum,
          env.persistOk p.1 = true →
          findById (startBulkTranslation chapters glossary env fuel).1 (p.2).id
            = some (updTC (translateChapterWithGlossary (p.2).content glossary env.gen)
                p.1 p.2))
      ∧ (∀ p ∈ (chapters.filter fun c => isUntranslated c).enum,
          env.persistOk p.1 = false →
          findById (startBulkTranslation chapters glossary env fuel).1 (p.2).id
              = some p.2
            ∧ BulkEvent.caught p.1 p.1
                ∈ (startBulkTranslation chapters glossary env fuel).2) := by
  unfold startBulkTranslation
  by_cases h0 : (chapters.filter fun c => isUntranslated c).length = 0
  · simp only [h0, if_pos]
    rw [List.length_eq_zero.mp h0]
    refine ⟨rfl, ?_, ?_⟩ <;> intro p hp <;> cases hp
  · simp only [h0, if_neg, if_false]
    rw [List.enum_eq_enumFrom]
    exact runBulkAux_noPause glossary env fuel hstop hpause hfuel
      (chapters.filter fun c => isUntranslated c) 0 chapters
      (hids.filter _)
      fun c hc => findById_self c chapters hids (List.mem_of_mem_filter hc)

/-- C3 witness: concrete no-pause run over one untranslated chapter with a
succeeding collaborator and persistence. -/
theorem c3_partial_failure_isolation_witness :
    (((startBulkTranslation [chU] [] envOk 1).2.length
        = ([chU].filter fun c => isUntranslated c).length)
      ∧ (∀ p ∈ ([chU].filter fun c => isUntranslated c).enum,
          envOk.persistOk p.1 = true →
          findById (startBulkTranslation [chU] [] envOk 1).1 (p.2).id
            = some (updTC (translateChapterWithGlossary (p.2).content [] envOk.gen)
                p.1 p.2))
      ∧ (∀ p ∈ ([chU].filter fun c => isUntranslated c).enum,
          envOk.persistOk p.1 = false →
          findById (startBulkTranslation [chU] [] envOk 1).1 (p.2).id = some p.2
            ∧ BulkEvent.caught p.1 p.1 ∈ (startBulkTranslation [chU] [] envOk 1).2)) :=
  c3_partial_failure_isolation [chU] [] envOk 1 (by decide) rfl (fun _ => rfl)
    (by decide)
